import Mathlib

/-!
Verification development for the lecture-notetaker pipeline.

The Python sources under `src/lecture_notetaker` are shallowly embedded:
strings are `List Char` (with `String` wrappers where the original API
takes a string), floats coming out of transcript timing are exact
rationals `ℚ`, machine-side API calls (the generation model, the remote
services) are oracles passed in as function arguments, and a raised
exception is the `none` / `Except.error` branch of the oracle's result.
-/

set_option linter.unusedVariables false

/-! ## Python string primitives -/

/-- The whitespace set of Python `str.strip()` with no argument. -/
def isPySpace (c : Char) : Bool :=
  c == ' ' || c == '\t' || c == '\n' || c == '\r' || c == '\x0b' || c == '\x0c'

/-- Embedding of Python `str.strip()`: drop leading and trailing whitespace. -/
def pyStrip (l : List Char) : List Char :=
  ((l.dropWhile isPySpace).reverse.dropWhile isPySpace).reverse

/-- Embedding of Python `line.split('\n')` (keeps empty pieces). -/
def pyLines (l : List Char) : List (List Char) :=
  l.splitOn '\n'

/-- Embedding of Python `text.split('---')`: split on non-overlapping
occurrences of the three-dash separator, scanned left to right. -/
def pySplitDashes : List Char → List (List Char)
  | '-' :: '-' :: '-' :: rest => [] :: pySplitDashes rest
  | x :: rest =>
    match pySplitDashes rest with
    | b :: bs => (x :: b) :: bs
    | [] => [[x]]
  | [] => [[]]

/-- Embedding of Python `summary.split('\n\n')`. -/
def pySplitBlank : List Char → List (List Char)
  | '\n' :: '\n' :: rest => [] :: pySplitBlank rest
  | x :: rest =>
    match pySplitBlank rest with
    | b :: bs => (x :: b) :: bs
    | [] => [[x]]
  | [] => [[]]

/-- Value of a decimal digit character. -/
def digitVal (c : Char) : ℕ := c.toNat - 48

/-- Value of a string of decimal digits, as Python `int(...)` reads it. -/
def digitStrVal (l : List Char) : ℕ :=
  l.foldl (fun a c => 10 * a + digitVal c) 0

/-! ## Data model (`transcript_extractor.py`, `ai_processor.py`,
`lecture_notetaker.py`) -/

/-- `VideoInfo` from `transcript_extractor.py`. -/
structure VideoInfo where
  id : String
  title : String
  description : String
  duration : ℕ
  channel_title : String
  published_at : String
  view_count : ℕ
  like_count : Option ℕ := none
  thumbnail_url : Option String := none
deriving DecidableEq, Repr

/-- `TranscriptSegment` from `transcript_extractor.py`. -/
structure TranscriptSegment where
  text : String
  start : ℚ
  duration : ℚ
deriving DecidableEq, Repr

/-- Derived end time of a segment. -/
def TranscriptSegment.endTime (s : TranscriptSegment) : ℚ := s.start + s.duration

/-- `KeyConcept` from `ai_processor.py`. -/
structure KeyConcept where
  term : String
  definition : String
  importance : String
  timestamp : Option ℚ := none
deriving DecidableEq, Repr

/-- `Chapter` from `ai_processor.py`. -/
structure Chapter where
  title : String
  start_time : ℚ
  end_time : ℚ
  summary : String
  key_points : List String
deriving DecidableEq, Repr

/-- `ProcessedContent` from `ai_processor.py`. -/
structure ProcessedContent where
  summary : String
  key_concepts : List KeyConcept
  chapters : List Chapter
  main_topics : List String
  learning_objectives : List String
  questions : List String
deriving DecidableEq, Repr

/-- `NoteResult` from `lecture_notetaker.py`. -/
structure NoteResult where
  video_info : VideoInfo
  processed_content : ProcessedContent
  notion_url : Option String := none
  success : Bool := true
  error_message : Option String := none
deriving DecidableEq, Repr

/-! ## Transcript extractor (`transcript_extractor.py`) -/

namespace TranscriptExtractor

/-- Embedding of Python `duration_str.replace('PT', '')`: remove every
occurrence of the two-character pattern, scanned left to right. -/
def removePT : List Char → List Char
  | 'P' :: 'T' :: rest => removePT rest
  | x :: rest => x :: removePT rest
  | [] => []

/-- Embedding of the capture group of `re.search(r'(\d+)X', s)` for a
non-digit character `X`: the value of the first maximal digit run that is
immediately followed by `X`, or `none` when there is no such run.  `acc`
and `hasRun` carry the digits read so far of the current run. -/
def scanNumBefore (x : Char) (acc : ℕ) (hasRun : Bool) : List Char → Option ℕ
  | [] => none
  | c :: rest =>
    if c.isDigit then scanNumBefore x (10 * acc + digitVal c) true rest
    else if hasRun && c == x then some acc
    else scanNumBefore x 0 false rest

/-- `TranscriptExtractor._parse_duration` on the character list of the
duration string: strip `PT`, then independently extract the `H`, `M`, `S`
components (each defaulting to 0) and combine. -/
def parse_durationChars (l : List Char) : ℕ :=
  let l := removePT l
  let hours := if l.contains 'H' then (scanNumBefore 'H' 0 false l).getD 0 else 0
  let minutes := if l.contains 'M' then (scanNumBefore 'M' 0 false l).getD 0 else 0
  let seconds := if l.contains 'S' then (scanNumBefore 'S' 0 false l).getD 0 else 0
  hours * 3600 + minutes * 60 + seconds

/-- `TranscriptExtractor._parse_duration`. -/
def parse_duration (s : String) : ℕ := parse_durationChars s.data

/-- The plain-string branch of `TranscriptExtractor.get_transcript`:
split the transcript on newlines and turn each non-blank line (after
stripping) into a segment at `index * 5` seconds with duration `5.0`,
where `index` enumerates the split lines.  The Python loop appends to an
accumulator list, embedded here as a left fold. -/
def stringTranscriptSegments (s : String) : List TranscriptSegment :=
  (pyLines s.data).enum.foldl
    (fun acc p =>
      let line := pyStrip p.2
      if line = [] then acc
      else acc ++ [⟨String.mk line, (p.1 : ℚ) * 5, 5⟩])
    []

end TranscriptExtractor

/-! ## AI processor (`ai_processor.py`) -/

namespace AIProcessor

/-- Embedding of Python `line.replace('CONCEPT:', '')`. -/
def removeConceptTag : List Char → List Char
  | 'C' :: 'O' :: 'N' :: 'C' :: 'E' :: 'P' :: 'T' :: ':' :: rest => removeConceptTag rest
  | x :: rest => x :: removeConceptTag rest
  | [] => []

/-- Embedding of Python `line.replace('DEFINITION:', '')`. -/
def removeDefinitionTag : List Char → List Char
  | 'D' :: 'E' :: 'F' :: 'I' :: 'N' :: 'I' :: 'T' :: 'I' :: 'O' :: 'N' :: ':' :: rest =>
    removeDefinitionTag rest
  | x :: rest => x :: removeDefinitionTag rest
  | [] => []

/-- Embedding of Python `line.replace('IMPORTANCE:', '')`. -/
def removeImportanceTag : List Char → List Char
  | 'I' :: 'M' :: 'P' :: 'O' :: 'R' :: 'T' :: 'A' :: 'N' :: 'C' :: 'E' :: ':' :: rest =>
    removeImportanceTag rest
  | x :: rest => x :: removeImportanceTag rest
  | [] => []

/-- Embedding of Python `line.replace('TITLE:', '')`. -/
def removeTitleTag : List Char → List Char
  | 'T' :: 'I' :: 'T' :: 'L' :: 'E' :: ':' :: rest => removeTitleTag rest
  | x :: rest => x :: removeTitleTag rest
  | [] => []

/-- Embedding of Python `line.replace('SUMMARY:', '')`. -/
def removeSummaryTag : List Char → List Char
  | 'S' :: 'U' :: 'M' :: 'M' :: 'A' :: 'R' :: 'Y' :: ':' :: rest => removeSummaryTag rest
  | x :: rest => x :: removeSummaryTag rest
  | [] => []

/-- Embedding of Python `line.replace('- ', '')`. -/
def removeDashSpace : List Char → List Char
  | '-' :: ' ' :: rest => removeDashSpace rest
  | x :: rest => x :: removeDashSpace rest
  | [] => []

/-- The literal `CONCEPT:` prefix. -/
def conceptTag : List Char := ("CONCEPT:" : String).data

/-- The literal `DEFINITION:` prefix. -/
def definitionTag : List Char := ("DEFINITION:" : String).data

/-- The literal `IMPORTANCE:` prefix. -/
def importanceTag : List Char := ("IMPORTANCE:" : String).data

/-- The fields collected while scanning one `---`-delimited block in
`AIProcessor._parse_key_concepts` (the Python `concept_data` dict). -/
structure ConceptScan where
  term : Option (List Char) := none
  definition : Option (List Char) := none
  importance : Option (List Char) := none
deriving DecidableEq, Repr

/-- One line of the scan loop of `AIProcessor._parse_key_concepts`:
a line starting with one of the three tags overwrites that field with the
tag-stripped, trimmed remainder; other lines change nothing. -/
def conceptLineStep (d : ConceptScan) (line : List Char) : ConceptScan :=
  if conceptTag.isPrefixOf line then { d with term := some (pyStrip (removeConceptTag line)) }
  else if definitionTag.isPrefixOf line then
    { d with definition := some (pyStrip (removeDefinitionTag line)) }
  else if importanceTag.isPrefixOf line then
    { d with importance := some (pyStrip (removeImportanceTag line)) }
  else d

/-- The body of the block loop of `AIProcessor._parse_key_concepts`:
strip the block, skip it when blank, scan its lines, and produce a
`KeyConcept` exactly when all three fields were seen. -/
def conceptOfBlock (block : List Char) : Option KeyConcept :=
  let b := pyStrip block
  if b = [] then none
  else
    let d := (pyLines b).foldl conceptLineStep {}
    match d.term, d.definition, d.importance with
    | some t, some df, some imp => some ⟨String.mk t, String.mk df, String.mk imp, none⟩
    | _, _, _ => none

/-- `AIProcessor._parse_key_concepts`: split the response on `---` and fold
the block loop, appending one concept per successfully scanned block. -/
def parse_key_concepts (text : String) : List KeyConcept :=
  (pySplitDashes text.data).foldl
    (fun acc block =>
      match conceptOfBlock block with
      | some c => acc ++ [c]
      | none => acc)
    []

/-- `AIProcessor._extract_key_concepts`, with the generation call replaced
by its result: `limit` flows only into the prompt shown to the model, so
the model's reply (or the exception, `none`) is the oracle input
`response`; on an exception the method returns `[]`. -/
def extract_key_concepts (limit : ℕ) (response : Option String) : List KeyConcept :=
  match response with
  | some t => parse_key_concepts t
  | none => []

/-- The state of the line scan of `AIProcessor._parse_chapter`
(the Python `chapter_data` dict plus `current_section`). -/
structure ChapterScan where
  title : Option (List Char) := none
  summary : Option (List Char) := none
  key_points : List (List Char) := []
  inKeyPoints : Bool := false
deriving DecidableEq, Repr

/-- The literal `TITLE:` prefix. -/
def titleTag : List Char := ("TITLE:" : String).data

/-- The literal `SUMMARY:` prefix. -/
def summaryTag : List Char := ("SUMMARY:" : String).data

/-- The literal `KEY_POINTS:` prefix. -/
def keyPointsTag : List Char := ("KEY_POINTS:" : String).data

/-- The literal `- ` bullet prefix. -/
def dashSpaceTag : List Char := ("- " : String).data

/-- One line of the scan loop of `AIProcessor._parse_chapter`: each line is
stripped first; `TITLE:` and `SUMMARY:` lines set those fields, a
`KEY_POINTS:` line switches the current section, and `- ` lines inside the
key-points section append a bullet. -/
def chapterLineStep (d : ChapterScan) (rawLine : List Char) : ChapterScan :=
  let line := pyStrip rawLine
  if titleTag.isPrefixOf line then { d with title := some (pyStrip (removeTitleTag line)) }
  else if summaryTag.isPrefixOf line then
    { d with summary := some (pyStrip (removeSummaryTag line)) }
  else if keyPointsTag.isPrefixOf line then { d with inKeyPoints := true }
  else if dashSpaceTag.isPrefixOf line && d.inKeyPoints then
    { d with key_points := d.key_points ++ [pyStrip (removeDashSpace line)] }
  else d

/-- `AIProcessor._parse_chapter`: scan the response lines and return a
chapter (with the given bucket times) exactly when both a title and a
summary were found. -/
def parse_chapter (text : String) (start_time end_time : ℚ) : Option Chapter :=
  let d := (pyLines text.data).foldl chapterLineStep {}
  match d.title, d.summary with
  | some t, some s =>
    some ⟨String.mk t, start_time, end_time, String.mk s, d.key_points.map String.mk⟩
  | _, _ => none

/-- `AIProcessor._combine_transcript` on character lists: newline-join the
segment texts. -/
def combineTranscript (segments : List TranscriptSegment) : List Char :=
  List.intercalate ['\n'] (segments.map (fun s => s.text.data))

/-- The fallback chapter built in the `except` branch of the bucket loop of
`AIProcessor._generate_chapters`. -/
def fallbackChapter (i : ℕ) (start_time end_time : ℚ) : Chapter :=
  { title := "Chapter " ++ toString (i + 1)
    start_time := start_time
    end_time := end_time
    summary := "Content summary not available."
    key_points := ["Key points not available."] }

/-- One iteration of the bucket loop of `AIProcessor._generate_chapters`,
acting on the accumulated chapter list.  `gen i` is the generation call for
bucket `i`: `some text` is the model's reply, `none` a raised exception. -/
def bucketStep (duration num_chapters : ℕ) (segments : List TranscriptSegment)
    (gen : ℕ → Option String) (acc : List Chapter) (i : ℕ) : List Chapter :=
  let chapter_duration : ℚ := (duration : ℚ) / (num_chapters : ℚ)
  let start_time : ℚ := (i : ℚ) * chapter_duration
  let end_time : ℚ := min (((i : ℚ) + 1) * chapter_duration) (duration : ℚ)
  let chapter_segments := segments.filter
    (fun s => decide (start_time ≤ s.start) && decide (s.start < end_time))
  let chapter_text := combineTranscript chapter_segments
  if pyStrip chapter_text = [] then acc
  else
    match gen i with
    | some response =>
      match parse_chapter response start_time end_time with
      | some c => acc ++ [c]
      | none => acc
    | none => acc ++ [fallbackChapter i start_time end_time]

/-- `AIProcessor._generate_chapters`: fold the bucket loop over
`range num_chapters`. -/
def generate_chapters (duration num_chapters : ℕ) (segments : List TranscriptSegment)
    (gen : ℕ → Option String) : List Chapter :=
  (List.range num_chapters).foldl (bucketStep duration num_chapters segments gen) []

/-- Embedding of `re.sub(r'^\d+\.?\s*', '', line)`: strip a leading digit
run, then one optional dot, then optional whitespace; a line with no
leading digit is unchanged. -/
def stripNumbering (l : List Char) : List Char :=
  if l.takeWhile Char.isDigit = [] then l
  else
    let r := l.dropWhile Char.isDigit
    let r := match r with
      | '.' :: t => t
      | _ => r
    r.dropWhile isPySpace

/-- The response-parsing loop of `AIProcessor._extract_main_topics`: keep
each stripped, non-empty, non-`#` line with numbering removed, then cap at
8 topics. -/
def topicsFromResponse (text : String) : List String :=
  ((pyLines text.data).foldl
    (fun acc rawLine =>
      let line := pyStrip rawLine
      if line ≠ [] ∧ ¬ ['#'].isPrefixOf line then
        let topic := stripNumbering line
        if topic ≠ [] then acc ++ [String.mk topic] else acc
      else acc)
    []).take 8

/-- The literal `Students will` prefix. -/
def studentsWillTag : List Char := ("Students will" : String).data

/-- The response-parsing loop of `AIProcessor._generate_learning_objectives`:
keep each stripped line starting with `Students will` or `-` (with `- `
removed and trimmed), then cap at 6 objectives. -/
def objectivesFromResponse (text : String) : List String :=
  ((pyLines text.data).foldl
    (fun acc rawLine =>
      let line := pyStrip rawLine
      if line ≠ [] ∧ (studentsWillTag.isPrefixOf line ∨ ['-'].isPrefixOf line) then
        acc ++ [String.mk (pyStrip (removeDashSpace line))]
      else acc)
    []).take 6

/-- The response-parsing loop of `AIProcessor._generate_questions`: keep
each stripped, non-empty line containing `?`, with numbering removed, then
cap at 8 questions. -/
def questionsFromResponse (text : String) : List String :=
  ((pyLines text.data).foldl
    (fun acc rawLine =>
      let line := pyStrip rawLine
      if line ≠ [] ∧ line.contains '?' then
        let question := stripNumbering line
        if question ≠ [] then acc ++ [String.mk question] else acc
      else acc)
    []).take 8

/-- `AIProcessor._extract_main_topics` with the generation call replaced by
its result (`none` = a raised exception, which yields `[]`). -/
def extract_main_topics (response : Option String) : List String :=
  match response with
  | some t => topicsFromResponse t
  | none => []

/-- `AIProcessor._generate_learning_objectives` with the generation call
replaced by its result. -/
def generate_learning_objectives (response : Option String) : List String :=
  match response with
  | some t => objectivesFromResponse t
  | none => []

/-- `AIProcessor._generate_questions` with the generation call replaced by
its result. -/
def generate_questions (response : Option String) : List String :=
  match response with
  | some t => questionsFromResponse t
  | none => []

end AIProcessor

/-! ## Note publisher (`notion_client.py`) -/

/-- One rendered content block, keeping the type, text content and the
annotations that `notion_client.py` actually sets. -/
inductive Block where
  | heading1 (content : String)
  | heading2 (content : String)
  | heading3 (content : String) (bold : Bool)
  | paragraph (content : String) (bold : Bool) (italic : Bool)
  | bulleted_list_item (content : String)
  | numbered_list_item (content : String)
  | divider
deriving DecidableEq, Repr

namespace NotionClient

/-- Python `f"{n:02d}"` for the non-negative values formatted here. -/
def twoDigit (n : ℤ) : String :=
  if 0 ≤ n ∧ n < 10 then "0" ++ toString n else toString n

/-- Insert thousands separators into a reversed digit list
(Python `f"{n:,}"`). -/
def commaGroup : List Char → List Char
  | a :: b :: c :: d :: rest => a :: b :: c :: ',' :: commaGroup (d :: rest)
  | l => l

/-- Python `f"{n:,}"` for a natural number. -/
def pyThousands (n : ℕ) : String :=
  String.mk ((commaGroup (toString n).data.reverse).reverse)

/-- `NotionClient._create_header_section`: title heading, metadata
paragraph, divider. -/
def create_header_section (vi : VideoInfo) : List Block :=
  let duration_str := toString (vi.duration / 60) ++ ":" ++ twoDigit ((vi.duration % 60 : ℕ) : ℤ)
  let published := String.mk ((vi.published_at.data.splitOn 'T').headD [])
  let metadata_text :=
    "📺 **Channel:** " ++ vi.channel_title ++ "\n⏱️ **Duration:** " ++ duration_str ++
    "\n📅 **Published:** " ++ published ++ "\n👀 **Views:** " ++ pyThousands vi.view_count ++
    "\n🔗 **URL:** https://www.youtube.com/watch?v=" ++ vi.id
  [Block.heading1 vi.title, Block.paragraph metadata_text false false, Block.divider]

/-- `NotionClient._create_summary_section`: an unconditional `📋 Summary`
heading, then one paragraph per non-blank `\n\n`-separated piece of the
summary. -/
def create_summary_section (summary : String) : List Block :=
  [Block.heading2 "📋 Summary"] ++
  (pySplitBlank summary.data).foldl
    (fun acc p =>
      if pyStrip p ≠ [] then acc ++ [Block.paragraph (String.mk (pyStrip p)) false false]
      else acc)
    []

/-- `NotionClient._create_learning_objectives_section`. -/
def create_learning_objectives_section (objectives : List String) : List Block :=
  Block.heading2 "🎯 Learning Objectives" :: objectives.map Block.bulleted_list_item

/-- `NotionClient._create_main_topics_section`. -/
def create_main_topics_section (topics : List String) : List Block :=
  Block.heading2 "📚 Main Topics" :: topics.map Block.numbered_list_item

/-- `NotionClient._create_key_concepts_section`. -/
def create_key_concepts_section (concepts : List KeyConcept) : List Block :=
  Block.heading2 "🔑 Key Concepts" ::
  concepts.flatMap (fun c =>
    [Block.heading3 c.term true,
     Block.paragraph ("**Definition:** " ++ c.definition) false false,
     Block.paragraph ("**Why it matters:** " ++ c.importance) false false])

/-- Minutes part of a chapter timestamp: Python `int(t // 60)` on a
non-negatively used float time. -/
def minutesPart (t : ℚ) : ℤ := ⌊t / 60⌋

/-- Seconds part of a chapter timestamp: Python `int(t % 60)` (the float
modulus lands in `[0, 60)`, so truncation is flooring). -/
def secondsPart (t : ℚ) : ℤ := ⌊t - 60 * (⌊t / 60⌋ : ℚ)⌋

/-- The chapter heading text of `NotionClient._create_chapters_section`
for the `k`-th chapter (1-based). -/
def chapterHeading (k : ℕ) (c : Chapter) : String :=
  toString k ++ ". " ++ c.title ++ " (" ++ toString (minutesPart c.start_time) ++ ":" ++
  twoDigit (secondsPart c.start_time) ++ " - " ++ toString (minutesPart c.end_time) ++ ":" ++
  twoDigit (secondsPart c.end_time) ++ ")"

/-- `NotionClient._create_chapters_section`. -/
def create_chapters_section (chapters : List Chapter) : List Block :=
  Block.heading2 "📖 Chapters" ::
  chapters.enum.flatMap (fun p =>
    [Block.heading3 (chapterHeading (p.1 + 1) p.2) false,
     Block.paragraph p.2.summary false false] ++
    (if p.2.key_points ≠ [] then
      Block.paragraph "**Key Points:**" true false ::
        p.2.key_points.map Block.bulleted_list_item
     else []))

/-- `NotionClient._create_questions_section`. -/
def create_questions_section (questions : List String) : List Block :=
  Block.heading2 "❓ Review Questions" :: questions.map Block.numbered_list_item

/-- `NotionClient._create_footer_section`; `now` stands for the formatted
`datetime.now()` timestamp. -/
def create_footer_section (now : String) : List Block :=
  [Block.divider,
   Block.paragraph
     ("📝 *Notes generated automatically by Automated Lecture Notetaker*\n⏰ Generated on " ++ now)
     false true]

/-- `NotionClient._create_page_content`: header and summary sections are
appended unconditionally, the four list-based sections only when their
source list is non-empty, and the footer closes the page. -/
def create_page_content (vi : VideoInfo) (pc : ProcessedContent) (now : String) : List Block :=
  let blocks := create_header_section vi
  let blocks := blocks ++ create_summary_section pc.summary
  let blocks := if pc.learning_objectives ≠ [] then
    blocks ++ create_learning_objectives_section pc.learning_objectives else blocks
  let blocks := if pc.main_topics ≠ [] then
    blocks ++ create_main_topics_section pc.main_topics else blocks
  let blocks := if pc.key_concepts ≠ [] then
    blocks ++ create_key_concepts_section pc.key_concepts else blocks
  let blocks := if pc.chapters ≠ [] then
    blocks ++ create_chapters_section pc.chapters else blocks
  let blocks := if pc.questions ≠ [] then
    blocks ++ create_questions_section pc.questions else blocks
  blocks ++ create_footer_section now

end NotionClient

/-! ## Orchestrator (`lecture_notetaker.py`) -/

namespace LectureNotetaker

/-- The placeholder `VideoInfo` of the `except` branch of
`LectureNotetaker.process_video`. -/
def placeholderVideoInfo : VideoInfo :=
  { id := "", title := "Error", description := "", duration := 0,
    channel_title := "", published_at := "", view_count := 0 }

/-- The empty `ProcessedContent` of the `except` branch of
`LectureNotetaker.process_video`. -/
def emptyProcessedContent : ProcessedContent :=
  { summary := "", key_concepts := [], chapters := [],
    main_topics := [], learning_objectives := [], questions := [] }

/-- The failed `NoteResult` built by the `except` branch of
`LectureNotetaker.process_video`; `e` is the exception's message. -/
def failedNoteResult (e : String) : NoteResult :=
  { video_info := placeholderVideoInfo, processed_content := emptyProcessedContent,
    notion_url := none, success := false, error_message := some e }

/-- The title override of `process_video`: Python `if title:` replaces the
title only for a non-`None`, non-empty string. -/
def overrideTitle (title : Option String) (vi : VideoInfo) : VideoInfo :=
  match title with
  | some t => if t ≠ "" then { vi with title := t } else vi
  | none => vi

/-- The `try` body of `LectureNotetaker.process_video`: extraction, title
override, AI processing, then (conditionally) publishing; each stage is an
oracle whose `Except.error` payload is the raised exception's message. -/
def processVideoChain
    (extract : Except String (VideoInfo × List TranscriptSegment))
    (title : Option String)
    (process : VideoInfo → List TranscriptSegment → Except String ProcessedContent)
    (publish : VideoInfo → ProcessedContent → Except String String)
    (create_notion_page : Bool) :
    Except String (VideoInfo × ProcessedContent × Option String) := do
  let (vi, segments) ← extract
  let vi := overrideTitle title vi
  let pc ← process vi segments
  if create_notion_page then
    let url ← publish vi pc
    pure (vi, pc, some url)
  else
    pure (vi, pc, none)

/-- `LectureNotetaker.process_video`: run the chain; a success becomes a
successful `NoteResult`, any raised exception becomes the failed
`NoteResult` carrying the exception's message. -/
def process_video
    (extract : Except String (VideoInfo × List TranscriptSegment))
    (title : Option String)
    (process : VideoInfo → List TranscriptSegment → Except String ProcessedContent)
    (publish : VideoInfo → ProcessedContent → Except String String)
    (create_notion_page : Bool) : NoteResult :=
  match processVideoChain extract title process publish create_notion_page with
  | .ok (vi, pc, url) =>
    { video_info := vi, processed_content := pc, notion_url := url,
      success := true, error_message := none }
  | .error e => failedNoteResult e

end LectureNotetaker

/-! ## Concrete inputs used by the claims -/

/-- The transcript string of claim C2's concrete example. -/
def exampleTranscript : String := "a\nb\n\nc"

/-- The response text of claim C3's concrete example. -/
def exampleConceptsText : String := "CONCEPT: A\nDEFINITION: B\nIMPORTANCE: C\n---"

/-- A response block whose `CONCEPT:` line has an empty remainder. -/
def exampleEmptyTermText : String := "CONCEPT:\nDEFINITION: B\nIMPORTANCE: C"

/-- A block with `CONCEPT:` and `IMPORTANCE:` lines but no `DEFINITION:`
line, used to witness the drop rule. -/
def exampleNoDefinitionBlock : List Char := ("CONCEPT: A\nIMPORTANCE: C" : String).data

/-- One complete, parseable concept block (no `---` separator inside). -/
def conceptBlockText : List Char := ("CONCEPT: A\nDEFINITION: B\nIMPORTANCE: C" : String).data

/-- `n + 1` copies of `conceptBlockText` joined by the `---` separator. -/
def manyBlocksChars : ℕ → List Char
  | 0 => conceptBlockText
  | k + 1 => conceptBlockText ++ '-' :: '-' :: '-' :: manyBlocksChars k

/-- `manyBlocksChars` as a string response. -/
def manyBlocks (n : ℕ) : String := String.mk (manyBlocksChars n)

/-! ## Claim-side constructors for ISO-8601 durations (claim C4) -/

/-- One optional ISO-8601 component: a digit string followed by its unit
letter, or nothing when the component is absent. -/
def isoComponent (u : Char) : Option (List Char) → List Char
  | some ds => ds ++ [u]
  | none => []

/-- An ISO-8601 `PTxHyMzS`-shaped duration string with any subset of the
`H`, `M`, `S` components present. -/
def isoDuration (h m s : Option (List Char)) : List Char :=
  'P' :: 'T' :: (isoComponent 'H' h ++ (isoComponent 'M' m ++ isoComponent 'S' s))

/-- The numeric value of an optional component (0 when absent). -/
def isoVal : Option (List Char) → ℕ
  | some ds => digitStrVal ds
  | none => 0

/-- A present component must be a non-empty string of decimal digits. -/
def digitsOpt : Option (List Char) → Bool
  | none => true
  | some ds => !ds.isEmpty && ds.all Char.isDigit

/-- The three duration strings of the claim's examples. -/
def exampleDurationHMS : String := "PT1H2M30S"

/-- Example with only a seconds component. -/
def exampleDurationS : String := "PT45S"

/-- Example with only a minutes component. -/
def exampleDurationM : String := "PT2M"

/-- The contribution of bucket `i` to the chapter list of
`_generate_chapters`: nothing for a blank bucket, the parsed chapter (when
title and summary are found) for a successful generation call, and the
fallback chapter for a raised exception. -/
def bucketChapters (duration num_chapters : ℕ) (segments : List TranscriptSegment)
    (gen : ℕ → Option String) (i : ℕ) : List Chapter :=
  let chapter_duration : ℚ := (duration : ℚ) / (num_chapters : ℚ)
  let start_time : ℚ := (i : ℚ) * chapter_duration
  let end_time : ℚ := min (((i : ℚ) + 1) * chapter_duration) (duration : ℚ)
  let chapter_segments := segments.filter
    (fun s => decide (start_time ≤ s.start) && decide (s.start < end_time))
  if pyStrip (AIProcessor.combineTranscript chapter_segments) = [] then []
  else
    match gen i with
    | some response =>
      match AIProcessor.parse_chapter response start_time end_time with
      | some c => [c]
      | none => []
    | none => [AIProcessor.fallbackChapter i start_time end_time]

/-- Two transcript segments covering the two halves of a 600-second
video. -/
def exampleSegments : List TranscriptSegment :=
  [⟨"intro", 10, 5⟩, ⟨"later", 400, 5⟩]

/-- A generation oracle that always raises. -/
def exampleGenFail : ℕ → Option String := fun _ => none

/-- A concrete `VideoInfo` for the publisher examples. -/
def exampleVideoInfo : VideoInfo :=
  { id := "abc", title := "Title", description := "", duration := 61,
    channel_title := "Chan", published_at := "2024-01-02T03:04:05Z", view_count := 1234567 }

/-- A concrete formatted timestamp for the footer. -/
def exampleNow : String := "2024-01-02 at 03:04"

/-- An extraction oracle that raises with message `boom`. -/
def exampleExtractFailure : Except String (VideoInfo × List TranscriptSegment) :=
  Except.error "boom"

/-- A processing oracle that always succeeds with empty content. -/
def exampleProcessOk : VideoInfo → List TranscriptSegment → Except String ProcessedContent :=
  fun _ _ => Except.ok (LectureNotetaker.emptyProcessedContent)

/-- A publishing oracle that always succeeds. -/
def examplePublishOk : VideoInfo → ProcessedContent → Except String String :=
  fun _ _ => Except.ok "url"

/-! ## Generic lemmas about the accumulator folds used by the loops -/

/-- A loop that appends `g x` for each element, folded from the empty
accumulator, is a `flatMap`. -/
theorem foldl_acc_eq_flatMap {α β : Type} (f : List β → α → List β) (g : α → List β)
    (hf : ∀ acc x, f acc x = acc ++ g x) :
    ∀ (l : List α) (init : List β), l.foldl f init = init ++ l.flatMap g := by
  intro l
  induction l with
  | nil => intro init; simp
  | cons x xs ih =>
    intro init
    rw [List.foldl_cons, hf, ih, List.flatMap_cons, List.append_assoc]

/-- A loop that appends at most one element per iteration, folded from the
empty accumulator, is a `filterMap`. -/
theorem foldl_acc_eq_filterMap {α β : Type} (f : List β → α → List β) (g : α → Option β)
    (hf : ∀ acc x, f acc x = acc ++ (g x).toList) :
    ∀ (l : List α) (init : List β), l.foldl f init = init ++ l.filterMap g := by
  intro l
  induction l with
  | nil => intro init; simp
  | cons x xs ih =>
    intro init
    rw [List.foldl_cons, hf, ih]
    cases h : g x <;> simp [List.filterMap_cons, h]

/-! ## Claim C2: plain-string transcript normalization -/

/-- The string-branch loop of `get_transcript` as a `filterMap` over the
enumerated split lines: the synthetic start index counts every split line,
blank ones included. -/
theorem stringTranscriptSegments_eq (s : String) :
    TranscriptExtractor.stringTranscriptSegments s =
      (pyLines s.data).enum.filterMap (fun p =>
        if pyStrip p.2 = [] then none
        else some ⟨String.mk (pyStrip p.2), (p.1 : ℚ) * 5, 5⟩) := by
  have h := foldl_acc_eq_filterMap
    (fun (acc : List TranscriptSegment) (p : ℕ × List Char) =>
      if pyStrip p.2 = [] then acc
      else acc ++ [(⟨String.mk (pyStrip p.2), (p.1 : ℚ) * 5, 5⟩ : TranscriptSegment)])
    (fun p : ℕ × List Char =>
      if pyStrip p.2 = [] then none
      else some (⟨String.mk (pyStrip p.2), (p.1 : ℚ) * 5, 5⟩ : TranscriptSegment))
    (by
      intro acc x
      dsimp only
      split <;> simp)
    (pyLines s.data).enum []
  simpa [TranscriptExtractor.stringTranscriptSegments] using h

/-- Evaluation of the string branch on `"a\nb\n\nc"`: the blank line is
skipped as a segment but still consumes index 2, so the last start time is
15, not 10. -/
theorem stringTranscriptSegments_example :
    TranscriptExtractor.stringTranscriptSegments exampleTranscript =
      [⟨"a", 0, 5⟩, ⟨"b", 5, 5⟩, ⟨"c", 15, 5⟩] := by
  have h : pyLines exampleTranscript.data = [['a'], ['b'], [], ['c']] := by decide
  have ha : pyStrip ['a'] = ['a'] := by decide
  have hb : pyStrip ['b'] = ['b'] := by decide
  have hc : pyStrip ['c'] = ['c'] := by decide
  have he : pyStrip ([] : List Char) = [] := by decide
  rw [TranscriptExtractor.stringTranscriptSegments, h]
  norm_num [List.enum, List.enumFrom, ha, hb, hc, he]

/-- Claim C2, counterexample: on the plain-string transcript
`"a\nb\n\nc"` the start times are not `[0, 5, 10]` (the blank line is not
skipped when counting indices, so the code produces `[0, 5, 15]`). -/
theorem claim_C2_counterexample :
    ¬ (TranscriptExtractor.stringTranscriptSegments exampleTranscript).map
        TranscriptSegment.start = [0, 5, 10] := by
  rw [stringTranscriptSegments_example]
  intro h
  have h3 := congrArg (fun l => l.getD 2 0) h
  norm_num at h3

/-- Claim C2, amended: a plain-string transcript is split on newlines and
each non-blank line (after stripping) becomes a segment with duration 5.0
and start time `index * 5`, where `index` counts every split line, blank
lines included; in particular `"a\nb\n\nc"` yields exactly 3 segments with
start times 0, 5, 15. -/
theorem claim_C2_transcript_lines :
    (∀ s : String,
      TranscriptExtractor.stringTranscriptSegments s =
        (pyLines s.data).enum.filterMap (fun p =>
          let line := pyStrip p.2
          if line = [] then none
          else some ⟨String.mk line, (p.1 : ℚ) * 5, 5⟩)) ∧
    TranscriptExtractor.stringTranscriptSegments exampleTranscript =
      [⟨"a", 0, 5⟩, ⟨"b", 5, 5⟩, ⟨"c", 15, 5⟩] :=
  ⟨stringTranscriptSegments_eq, stringTranscriptSegments_example⟩

/-! ## Claim C7: output caps of the three list parsers -/

/-- Claim C7: for every generation response (a reply or a raised
exception), the main-topics parser returns at most 8 topics, the
learning-objectives parser at most 6 objectives, and the review-questions
parser at most 8 questions. -/
theorem claim_C7_parser_caps (response : Option String) :
    (AIProcessor.extract_main_topics response).length ≤ 8 ∧
    (AIProcessor.generate_learning_objectives response).length ≤ 6 ∧
    (AIProcessor.generate_questions response).length ≤ 8 := by
  refine ⟨?_, ?_, ?_⟩ <;>
    cases response <;>
      simp [AIProcessor.extract_main_topics, AIProcessor.generate_learning_objectives,
        AIProcessor.generate_questions, AIProcessor.topicsFromResponse,
        AIProcessor.objectivesFromResponse, AIProcessor.questionsFromResponse]
example : TranscriptExtractor.parse_durationChars ("PT45S" : String).data = 45 := by decide
example : TranscriptExtractor.parse_durationChars ("PT2M" : String).data = 120 := by decide
example : pySplitDashes ("a---b" : String).data = [['a'], ['b']] := by decide
example : pyStrip (" a b " : String).data = ['a', ' ', 'b'] := by decide

/-! ## Key-concept parsing lemmas (claims C3, C6, C9) -/

/-- The block loop of `_parse_key_concepts` is a `filterMap` of the
per-block scan over the `---`-separated blocks. -/
theorem parse_key_concepts_eq (text : String) :
    AIProcessor.parse_key_concepts text =
      (pySplitDashes text.data).filterMap AIProcessor.conceptOfBlock := by
  have h := foldl_acc_eq_filterMap
    (fun (acc : List KeyConcept) block =>
      match AIProcessor.conceptOfBlock block with
      | some c => acc ++ [c]
      | none => acc)
    AIProcessor.conceptOfBlock
    (by
      intro acc x
      cases h : AIProcessor.conceptOfBlock x <;> simp [h])
    (pySplitDashes text.data) []
  simpa [AIProcessor.parse_key_concepts] using h

/-- A line scan over lines none of which carries the `CONCEPT:` prefix
leaves the `term` field unchanged. -/
theorem conceptScan_term_pres (lines : List (List Char)) :
    ∀ d : AIProcessor.ConceptScan,
      (∀ l ∈ lines, AIProcessor.conceptTag.isPrefixOf l = false) →
      (lines.foldl AIProcessor.conceptLineStep d).term = d.term := by
  induction lines with
  | nil => intro d _; rfl
  | cons x xs ih =>
    intro d h
    rw [List.foldl_cons]
    rw [ih _ (fun l hl => h l (List.mem_cons_of_mem _ hl))]
    have hx := h x (List.mem_cons_self _ _)
    unfold AIProcessor.conceptLineStep
    split_ifs with h1 h2 h3 <;> simp_all

/-- A line scan over lines none of which carries the `DEFINITION:` prefix
leaves the `definition` field unchanged. -/
theorem conceptScan_definition_pres (lines : List (List Char)) :
    ∀ d : AIProcessor.ConceptScan,
      (∀ l ∈ lines, AIProcessor.definitionTag.isPrefixOf l = false) →
      (lines.foldl AIProcessor.conceptLineStep d).definition = d.definition := by
  induction lines with
  | nil => intro d _; rfl
  | cons x xs ih =>
    intro d h
    rw [List.foldl_cons]
    rw [ih _ (fun l hl => h l (List.mem_cons_of_mem _ hl))]
    have hx := h x (List.mem_cons_self _ _)
    unfold AIProcessor.conceptLineStep
    split_ifs with h1 h2 h3 <;> simp_all

/-- A line scan over lines none of which carries the `IMPORTANCE:` prefix
leaves the `importance` field unchanged. -/
theorem conceptScan_importance_pres (lines : List (List Char)) :
    ∀ d : AIProcessor.ConceptScan,
      (∀ l ∈ lines, AIProcessor.importanceTag.isPrefixOf l = false) →
      (lines.foldl AIProcessor.conceptLineStep d).importance = d.importance := by
  induction lines with
  | nil => intro d _; rfl
  | cons x xs ih =>
    intro d h
    rw [List.foldl_cons]
    rw [ih _ (fun l hl => h l (List.mem_cons_of_mem _ hl))]
    have hx := h x (List.mem_cons_self _ _)
    unfold AIProcessor.conceptLineStep
    split_ifs with h1 h2 h3 <;> simp_all

/-- A block one of whose three tag prefixes appears on none of its lines
scans to no concept. -/
theorem conceptOfBlock_drop (block : List Char)
    (h : ((pyLines (pyStrip block)).all
            (fun l => !(AIProcessor.conceptTag.isPrefixOf l)) = true) ∨
         ((pyLines (pyStrip block)).all
            (fun l => !(AIProcessor.definitionTag.isPrefixOf l)) = true) ∨
         ((pyLines (pyStrip block)).all
            (fun l => !(AIProcessor.importanceTag.isPrefixOf l)) = true)) :
    AIProcessor.conceptOfBlock block = none := by
  unfold AIProcessor.conceptOfBlock
  by_cases hb : pyStrip block = []
  · simp [hb]
  · simp only [hb, if_neg, if_false]
    rcases h with h | h | h
    · have ht := conceptScan_term_pres (pyLines (pyStrip block)) {}
        (by simpa using h)
      rw [ht]
    · have ht := conceptScan_definition_pres (pyLines (pyStrip block)) {}
        (by simpa using h)
      rw [ht]
      cases (List.foldl AIProcessor.conceptLineStep {} (pyLines (pyStrip block))).term <;> rfl
    · have ht := conceptScan_importance_pres (pyLines (pyStrip block)) {}
        (by simpa using h)
      rw [ht]
      cases (List.foldl AIProcessor.conceptLineStep {} (pyLines (pyStrip block))).term <;>
        cases (List.foldl AIProcessor.conceptLineStep {} (pyLines (pyStrip block))).definition <;>
          rfl

/-- Claim C3: key-concept parsing splits the response on `---`; a block
in which any of the three tag prefixes appears on no line is dropped
entirely; and on `"CONCEPT: A\nDEFINITION: B\nIMPORTANCE: C\n---"` the
parser yields exactly one concept with term `A`, definition `B`,
importance `C`. -/
theorem claim_C3_key_concept_blocks :
    (∀ block : List Char,
      (((pyLines (pyStrip block)).all
          (fun l => !(AIProcessor.conceptTag.isPrefixOf l)) = true) ∨
       ((pyLines (pyStrip block)).all
          (fun l => !(AIProcessor.definitionTag.isPrefixOf l)) = true) ∨
       ((pyLines (pyStrip block)).all
          (fun l => !(AIProcessor.importanceTag.isPrefixOf l)) = true)) →
      AIProcessor.conceptOfBlock block = none) ∧
    (∀ text : String,
      AIProcessor.parse_key_concepts text =
        (pySplitDashes text.data).filterMap AIProcessor.conceptOfBlock) ∧
    AIProcessor.parse_key_concepts exampleConceptsText = [⟨"A", "B", "C", none⟩] :=
  ⟨conceptOfBlock_drop, parse_key_concepts_eq, by decide⟩

/-- Witness for claim C3: a concrete block with no `DEFINITION:` line is
dropped. -/
theorem claim_C3_key_concept_blocks_witness :
    ((pyLines (pyStrip exampleNoDefinitionBlock)).all
      (fun l => !(AIProcessor.definitionTag.isPrefixOf l)) = true) ∧
    AIProcessor.conceptOfBlock exampleNoDefinitionBlock = none :=
  ⟨by decide, claim_C3_key_concept_blocks.1 exampleNoDefinitionBlock (Or.inr (Or.inl (by decide)))⟩

/-- Claim C6, counterexample: the parser checks only that the three tag
lines are present, not that their remainders are non-empty, so the block
`"CONCEPT:\nDEFINITION: B\nIMPORTANCE: C"` yields a `KeyConcept` whose
term is the empty string. -/
theorem claim_C6_counterexample :
    AIProcessor.parse_key_concepts exampleEmptyTermText =
      [{ term := "", definition := "B", importance := "C" }] := by decide

/-- Claim C6, amended: a `KeyConcept` is produced from a block only when
each of the three tag prefixes appears on some line of the stripped block;
the parsed field values are not checked for non-emptiness, so a
`KeyConcept` with an empty term, definition, or importance can be
returned — witnessed by the block `"CONCEPT:\nDEFINITION: B\nIMPORTANCE:
C"`, which parses to one concept with an empty term. -/
theorem claim_C6_concept_field_presence :
    (∀ text : String,
      AIProcessor.parse_key_concepts text =
        (pySplitDashes text.data).filterMap AIProcessor.conceptOfBlock) ∧
    (∀ (block : List Char) (c : KeyConcept),
      AIProcessor.conceptOfBlock block = some c →
      ((pyLines (pyStrip block)).any
        (fun l => AIProcessor.conceptTag.isPrefixOf l) = true) ∧
      ((pyLines (pyStrip block)).any
        (fun l => AIProcessor.definitionTag.isPrefixOf l) = true) ∧
      ((pyLines (pyStrip block)).any
        (fun l => AIProcessor.importanceTag.isPrefixOf l) = true)) ∧
    AIProcessor.parse_key_concepts exampleEmptyTermText =
      [{ term := "", definition := "B", importance := "C" }] := by
  refine ⟨parse_key_concepts_eq, ?_, by decide⟩
  intro block c h
  refine ⟨?_, ?_, ?_⟩
  · by_contra hc
    rw [Bool.not_eq_true] at hc
    rw [conceptOfBlock_drop block (Or.inl ?_)] at h
    · exact Option.noConfusion h
    · simp only [List.all_eq_true]
      intro l hl
      have h2 : ¬ AIProcessor.conceptTag <+: l := by
        simpa [List.isPrefixOf_iff_prefix] using List.any_eq_false.mp hc l hl
      cases hb : AIProcessor.conceptTag.isPrefixOf l
      · simp
      · exact (h2 (List.isPrefixOf_iff_prefix.mp hb)).elim
  · by_contra hc
    rw [Bool.not_eq_true] at hc
    rw [conceptOfBlock_drop block (Or.inr (Or.inl ?_))] at h
    · exact Option.noConfusion h
    · simp only [List.all_eq_true]
      intro l hl
      have h2 : ¬ AIProcessor.definitionTag <+: l := by
        simpa [List.isPrefixOf_iff_prefix] using List.any_eq_false.mp hc l hl
      cases hb : AIProcessor.definitionTag.isPrefixOf l
      · simp
      · exact (h2 (List.isPrefixOf_iff_prefix.mp hb)).elim
  · by_contra hc
    rw [Bool.not_eq_true] at hc
    rw [conceptOfBlock_drop block (Or.inr (Or.inr ?_))] at h
    · exact Option.noConfusion h
    · simp only [List.all_eq_true]
      intro l hl
      have h2 : ¬ AIProcessor.importanceTag <+: l := by
        simpa [List.isPrefixOf_iff_prefix] using List.any_eq_false.mp hc l hl
      cases hb : AIProcessor.importanceTag.isPrefixOf l
      · simp
      · exact (h2 (List.isPrefixOf_iff_prefix.mp hb)).elim

/-- Witness for claim C6: a complete block produces a concept and indeed
carries all three tag prefixes. -/
theorem claim_C6_concept_field_presence_witness :
    AIProcessor.conceptOfBlock conceptBlockText = some ⟨"A", "B", "C", none⟩ ∧
    ((pyLines (pyStrip conceptBlockText)).any
      (fun l => AIProcessor.conceptTag.isPrefixOf l) = true) :=
  ⟨by decide,
   (claim_C6_concept_field_presence.2.1 conceptBlockText ⟨"A", "B", "C", none⟩ (by decide)).1⟩

/-- `pySplitDashes` on a list starting with a non-dash character prepends
that character to the first piece. -/
theorem pySplitDashes_cons_ne (x : Char) (l : List Char) (hx : x ≠ '-') :
    pySplitDashes (x :: l) =
      (x :: (pySplitDashes l).headD []) :: (pySplitDashes l).tail := by
  rw [pySplitDashes.eq_def]
  split <;> simp_all
  rename_i heq
  obtain ⟨rfl, rfl⟩ := heq
  cases h2 : pySplitDashes l <;> simp [h2]

/-- `pySplitDashes` of a dash-free piece followed by `---` and a rest
splits off exactly that piece. -/
theorem pySplitDashes_append (pre l : List Char) (hp : '-' ∉ pre) :
    pySplitDashes (pre ++ '-' :: '-' :: '-' :: l) = pre :: pySplitDashes l := by
  induction pre with
  | nil => rfl
  | cons x xs ih =>
    have hx : x ≠ '-' := fun h => hp (h ▸ List.mem_cons_self x xs)
    have ih2 := ih (fun h => hp (List.mem_cons_of_mem _ h))
    rw [List.cons_append, pySplitDashes_cons_ne x _ hx, ih2]
    simp

/-- `pySplitDashes` of a dash-free list is that single piece. -/
theorem pySplitDashes_noDash (pre : List Char) (hp : '-' ∉ pre) :
    pySplitDashes pre = [pre] := by
  induction pre with
  | nil => rfl
  | cons x xs ih =>
    have hx : x ≠ '-' := fun h => hp (h ▸ List.mem_cons_self x xs)
    have ih2 := ih (fun h => hp (List.mem_cons_of_mem _ h))
    rw [pySplitDashes_cons_ne x _ hx, ih2]
    rfl

/-- Splitting `n + 1` concept blocks joined by `---` yields exactly the
`n + 1` copies of the block. -/
theorem pySplitDashes_manyBlocks (n : ℕ) :
    pySplitDashes (manyBlocksChars n) = List.replicate (n + 1) conceptBlockText := by
  induction n with
  | zero => exact pySplitDashes_noDash conceptBlockText (by decide)
  | succ k ih =>
    rw [manyBlocksChars, pySplitDashes_append conceptBlockText _ (by decide), ih]
    simp [List.replicate_succ]

/-- `filterMap` of a constantly successful function over `replicate`. -/
theorem filterMap_replicate_some {α β : Type} (f : α → Option β) (a : α) (c : β)
    (h : f a = some c) (n : ℕ) :
    List.filterMap f (List.replicate n a) = List.replicate n c := by
  induction n with
  | zero => rfl
  | succ k ih => simp [List.replicate_succ, List.filterMap_cons, h, ih]

/-- Claim C9: the caller-supplied `key_concepts_limit` does not bound the
number of returned concepts: it flows only into the prompt, so the
post-processing is independent of it, and the response consisting of
`limit + 1` complete blocks parses to `limit + 1` concepts — strictly more
than `limit`. -/
theorem claim_C9_no_limit_cap :
    (∀ (limit limit' : ℕ) (response : Option String),
      AIProcessor.extract_key_concepts limit response =
        AIProcessor.extract_key_concepts limit' response) ∧
    (∀ limit : ℕ,
      (pySplitDashes (manyBlocks limit).data).length = limit + 1 ∧
      limit < (AIProcessor.extract_key_concepts limit (some (manyBlocks limit))).length) := by
  constructor
  · intro limit limit' response
    rfl
  · intro limit
    have hdata : (manyBlocks limit).data = manyBlocksChars limit := rfl
    have hsplit := pySplitDashes_manyBlocks limit
    have hone : AIProcessor.conceptOfBlock conceptBlockText =
        some ⟨"A", "B", "C", none⟩ := by decide
    constructor
    · rw [hdata, hsplit, List.length_replicate]
    · show limit < (AIProcessor.parse_key_concepts (manyBlocks limit)).length
      rw [parse_key_concepts_eq, hdata, hsplit,
        filterMap_replicate_some _ _ _ hone, List.length_replicate]
      exact Nat.lt_succ_self limit

/-! ## Duration parsing lemmas (claim C4) -/

/-- A decimal digit is none of the marker letters of the duration format. -/
theorem digit_ne_marker (c : Char) (h : c.isDigit = true) :
    c ≠ 'P' ∧ c ≠ 'T' ∧ c ≠ 'H' ∧ c ≠ 'M' ∧ c ≠ 'S' := by
  refine ⟨?_, ?_, ?_, ?_, ?_⟩ <;> (rintro rfl; exact absurd h (by decide))

/-- `removePT` is the identity on a list not containing `'P'`. -/
theorem removePT_no_P (l : List Char) (h : 'P' ∉ l) :
    TranscriptExtractor.removePT l = l := by
  induction l with
  | nil => rfl
  | cons x xs ih =>
    have hx : x ≠ 'P' := fun he => h (he ▸ List.mem_cons_self x xs)
    have ih2 := ih (fun hm => h (List.mem_cons_of_mem _ hm))
    rw [TranscriptExtractor.removePT.eq_def]
    split <;> simp_all

/-- Scanning a digit run accumulates its decimal value and sets the
run flag. -/
theorem scanNumBefore_digits (x : Char) :
    ∀ ds : List Char, (∀ c ∈ ds, c.isDigit = true) →
      ∀ (l : List Char) (acc : ℕ) (b : Bool),
        TranscriptExtractor.scanNumBefore x acc b (ds ++ l) =
          TranscriptExtractor.scanNumBefore x
            (ds.foldl (fun a c => 10 * a + digitVal c) acc)
            (if ds = [] then b else true) l := by
  intro ds
  induction ds with
  | nil => intro _ l acc b; simp
  | cons c cs ih =>
    intro hd l acc b
    have hc : c.isDigit = true := hd c (List.mem_cons_self _ _)
    have ih2 := ih (fun d hdm => hd d (List.mem_cons_of_mem _ hdm)) l (10 * acc + digitVal c) true
    rw [List.cons_append, TranscriptExtractor.scanNumBefore, if_pos hc, ih2]
    simp

/-- The scan finds the value of a leading digit run immediately followed
by the marker. -/
theorem scanNumBefore_hit (x : Char) (hx : x.isDigit = false) (ds : List Char)
    (hne : ds ≠ []) (hd : ∀ c ∈ ds, c.isDigit = true) (l : List Char) :
    TranscriptExtractor.scanNumBefore x 0 false (ds ++ x :: l) = some (digitStrVal ds) := by
  rw [scanNumBefore_digits x ds hd (x :: l) 0 false, if_neg hne,
    TranscriptExtractor.scanNumBefore, hx]
  simp [digitStrVal]

/-- The scan skips a digit run followed by a different non-digit marker. -/
theorem scanNumBefore_past (x u : Char) (hu : u.isDigit = false) (hux : u ≠ x)
    (ds : List Char) (hd : ∀ c ∈ ds, c.isDigit = true) (l : List Char) :
    TranscriptExtractor.scanNumBefore x 0 false (ds ++ u :: l) =
      TranscriptExtractor.scanNumBefore x 0 false l := by
  rw [scanNumBefore_digits x ds hd (u :: l) 0 false, TranscriptExtractor.scanNumBefore, hu]
  have hb : (u == x) = false := by simp [hux]
  simp [hb]

/-- The scan skips a whole optional component with a different marker. -/
theorem scanNumBefore_past_comp (x u : Char) (hu : u.isDigit = false) (hux : u ≠ x)
    (o : Option (List Char)) (ho : ∀ ds, o = some ds → ∀ c ∈ ds, c.isDigit = true)
    (l : List Char) :
    TranscriptExtractor.scanNumBefore x 0 false (isoComponent u o ++ l) =
      TranscriptExtractor.scanNumBefore x 0 false l := by
  cases o with
  | none => rfl
  | some ds =>
    have h2 : isoComponent u (some ds) ++ l = ds ++ u :: l := by simp [isoComponent]
    rw [h2, scanNumBefore_past x u hu hux ds (ho ds rfl)]

/-- A non-digit character different from the component's marker does not
occur in the component. -/
theorem not_mem_isoComponent (y u : Char) (hyu : y ≠ u) (hy : y.isDigit = false)
    (o : Option (List Char)) (ho : ∀ ds, o = some ds → ∀ c ∈ ds, c.isDigit = true) :
    y ∉ isoComponent u o := by
  cases o with
  | none => simp [isoComponent]
  | some ds =>
    simp only [isoComponent, List.mem_append, List.mem_singleton]
    rintro (hmem | rfl)
    · have := ho ds rfl y hmem
      rw [hy] at this
      exact Bool.noConfusion this
    · exact hyu rfl

/-- Claim C4, counterexample: `"PT1H2M30S"` is 1 hour, 2 minutes and 30
seconds, which the code parses to 3750 — not the 3930 the claim states. -/
theorem claim_C4_counterexample :
    TranscriptExtractor.parse_duration exampleDurationHMS = 3750 ∧
    ¬ TranscriptExtractor.parse_duration exampleDurationHMS = 3930 := by decide

/-- Claim C4, amended: for every `PTxHyMzS`-shaped duration string with
any subset of the `H`/`M`/`S` components present (each a non-empty digit
string), the parser returns `hours * 3600 + minutes * 60 + seconds` with
absent components contributing 0; `"PT1H2M30S"` parses to 3750, `"PT45S"`
to 45 and `"PT2M"` to 120. -/
theorem claim_C4_duration_formula :
    (∀ h m s : Option (List Char),
      digitsOpt h = true → digitsOpt m = true → digitsOpt s = true →
      TranscriptExtractor.parse_duration (String.mk (isoDuration h m s)) =
        isoVal h * 3600 + isoVal m * 60 + isoVal s) ∧
    TranscriptExtractor.parse_duration exampleDurationHMS = 3750 ∧
    TranscriptExtractor.parse_duration exampleDurationS = 45 ∧
    TranscriptExtractor.parse_duration exampleDurationM = 120 := by
  refine ⟨?_, by decide, by decide, by decide⟩
  intro h m s hh hm hs
  have hdig : ∀ o : Option (List Char), digitsOpt o = true →
      ∀ ds, o = some ds → ds ≠ [] ∧ ∀ c ∈ ds, c.isDigit = true := by
    intro o ho ds hds
    subst hds
    simp only [digitsOpt, Bool.and_eq_true] at ho
    constructor
    · intro hnil
      rw [hnil] at ho
      simp at ho
    · exact fun c hc => List.all_eq_true.mp ho.2 c hc
  have hHdig : ∀ ds, h = some ds → ∀ c ∈ ds, c.isDigit = true :=
    fun ds hds => (hdig h hh ds hds).2
  have hMdig : ∀ ds, m = some ds → ∀ c ∈ ds, c.isDigit = true :=
    fun ds hds => (hdig m hm ds hds).2
  have hSdig : ∀ ds, s = some ds → ∀ c ∈ ds, c.isDigit = true :=
    fun ds hds => (hdig s hs ds hds).2
  have hPbody : 'P' ∉ isoComponent 'H' h ++ (isoComponent 'M' m ++ isoComponent 'S' s) := by
    intro hmem
    rcases List.mem_append.mp hmem with h1 | h1
    · exact not_mem_isoComponent 'P' 'H' (by decide) (by decide) h hHdig h1
    · rcases List.mem_append.mp h1 with h2 | h2
      · exact not_mem_isoComponent 'P' 'M' (by decide) (by decide) m hMdig h2
      · exact not_mem_isoComponent 'P' 'S' (by decide) (by decide) s hSdig h2
  have hrem : TranscriptExtractor.removePT (isoDuration h m s) =
      isoComponent 'H' h ++ (isoComponent 'M' m ++ isoComponent 'S' s) :=
    (rfl : TranscriptExtractor.removePT (isoDuration h m s) =
        TranscriptExtractor.removePT
          (isoComponent 'H' h ++ (isoComponent 'M' m ++ isoComponent 'S' s))).trans
      (removePT_no_P _ hPbody)
  have hhours :
      (if (isoComponent 'H' h ++ (isoComponent 'M' m ++ isoComponent 'S' s)).contains 'H'
        then (TranscriptExtractor.scanNumBefore 'H' 0 false
          (isoComponent 'H' h ++ (isoComponent 'M' m ++ isoComponent 'S' s))).getD 0
        else 0) = isoVal h := by
    cases h with
    | none =>
      have hnot : 'H' ∉ isoComponent 'H' none ++ (isoComponent 'M' m ++ isoComponent 'S' s) := by
        intro hmem
        rcases List.mem_append.mp hmem with h1 | h1
        · simp [isoComponent] at h1
        · rcases List.mem_append.mp h1 with h2 | h2
          · exact not_mem_isoComponent 'H' 'M' (by decide) (by decide) m hMdig h2
          · exact not_mem_isoComponent 'H' 'S' (by decide) (by decide) s hSdig h2
      have hcon : (isoComponent 'H' none ++
          (isoComponent 'M' m ++ isoComponent 'S' s)).contains 'H' = false := by
        simpa using hnot
      rw [hcon]
      simp [isoVal]
    | some dh =>
      obtain ⟨hne, hds⟩ := hdig (some dh) hh dh rfl
      have hmem : 'H' ∈ isoComponent 'H' (some dh) ++
          (isoComponent 'M' m ++ isoComponent 'S' s) :=
        List.mem_append.mpr (Or.inl (by simp [isoComponent]))
      have hcon : (isoComponent 'H' (some dh) ++
          (isoComponent 'M' m ++ isoComponent 'S' s)).contains 'H' = true := by
        simpa using hmem
      have hsplit : isoComponent 'H' (some dh) ++
          (isoComponent 'M' m ++ isoComponent 'S' s) =
          dh ++ 'H' :: (isoComponent 'M' m ++ isoComponent 'S' s) := by
        simp [isoComponent]
      rw [hcon, hsplit, scanNumBefore_hit 'H' (by decide) dh hne hds]
      simp [isoVal]
  have hmins :
      (if (isoComponent 'H' h ++ (isoComponent 'M' m ++ isoComponent 'S' s)).contains 'M'
        then (TranscriptExtractor.scanNumBefore 'M' 0 false
          (isoComponent 'H' h ++ (isoComponent 'M' m ++ isoComponent 'S' s))).getD 0
        else 0) = isoVal m := by
    cases m with
    | none =>
      have hnot : 'M' ∉ isoComponent 'H' h ++ (isoComponent 'M' none ++ isoComponent 'S' s) := by
        intro hmem
        rcases List.mem_append.mp hmem with h1 | h1
        · exact not_mem_isoComponent 'M' 'H' (by decide) (by decide) h hHdig h1
        · rcases List.mem_append.mp h1 with h2 | h2
          · simp [isoComponent] at h2
          · exact not_mem_isoComponent 'M' 'S' (by decide) (by decide) s hSdig h2
      have hcon : (isoComponent 'H' h ++
          (isoComponent 'M' none ++ isoComponent 'S' s)).contains 'M' = false := by
        simpa using hnot
      rw [hcon]
      simp [isoVal]
    | some dm =>
      obtain ⟨hne, hds⟩ := hdig (some dm) hm dm rfl
      have hmem : 'M' ∈ isoComponent 'H' h ++
          (isoComponent 'M' (some dm) ++ isoComponent 'S' s) :=
        List.mem_append.mpr (Or.inr (List.mem_append.mpr (Or.inl (by simp [isoComponent]))))
      have hcon : (isoComponent 'H' h ++
          (isoComponent 'M' (some dm) ++ isoComponent 'S' s)).contains 'M' = true := by
        simpa using hmem
      have hpast := scanNumBefore_past_comp 'M' 'H' (by decide) (by decide) h hHdig
        (isoComponent 'M' (some dm) ++ isoComponent 'S' s)
      have hsplit : isoComponent 'M' (some dm) ++ isoComponent 'S' s =
          dm ++ 'M' :: isoComponent 'S' s := by
        simp [isoComponent]
      rw [hcon, hpast, hsplit, scanNumBefore_hit 'M' (by decide) dm hne hds]
      simp [isoVal]
  have hsecs :
      (if (isoComponent 'H' h ++ (isoComponent 'M' m ++ isoComponent 'S' s)).contains 'S'
        then (TranscriptExtractor.scanNumBefore 'S' 0 false
          (isoComponent 'H' h ++ (isoComponent 'M' m ++ isoComponent 'S' s))).getD 0
        else 0) = isoVal s := by
    cases s with
    | none =>
      have hnot : 'S' ∉ isoComponent 'H' h ++ (isoComponent 'M' m ++ isoComponent 'S' none) := by
        intro hmem
        rcases List.mem_append.mp hmem with h1 | h1
        · exact not_mem_isoComponent 'S' 'H' (by decide) (by decide) h hHdig h1
        · rcases List.mem_append.mp h1 with h2 | h2
          · exact not_mem_isoComponent 'S' 'M' (by decide) (by decide) m hMdig h2
          · simp [isoComponent] at h2
      have hcon : (isoComponent 'H' h ++
          (isoComponent 'M' m ++ isoComponent 'S' none)).contains 'S' = false := by
        simpa using hnot
      rw [hcon]
      simp [isoVal]
    | some dt =>
      obtain ⟨hne, hds⟩ := hdig (some dt) hs dt rfl
      have hmem : 'S' ∈ isoComponent 'H' h ++
          (isoComponent 'M' m ++ isoComponent 'S' (some dt)) :=
        List.mem_append.mpr (Or.inr (List.mem_append.mpr (Or.inr (by simp [isoComponent]))))
      have hcon : (isoComponent 'H' h ++
          (isoComponent 'M' m ++ isoComponent 'S' (some dt))).contains 'S' = true := by
        simpa using hmem
      have hpastH := scanNumBefore_past_comp 'S' 'H' (by decide) (by decide) h hHdig
        (isoComponent 'M' m ++ isoComponent 'S' (some dt))
      have hpastM := scanNumBefore_past_comp 'S' 'M' (by decide) (by decide) m hMdig
        (isoComponent 'S' (some dt))
      have hsplit : isoComponent 'S' (some dt) = dt ++ 'S' :: [] := by
        simp [isoComponent]
      rw [hcon, hpastH, hpastM, hsplit, scanNumBefore_hit 'S' (by decide) dt hne hds]
      simp [isoVal]
  show TranscriptExtractor.parse_durationChars (isoDuration h m s) = _
  simp only [TranscriptExtractor.parse_durationChars, hrem, hhours, hmins, hsecs]

/-- Witness for claim C4: the formula applied to the components of
`"PT1H2M30S"`. -/
theorem claim_C4_duration_formula_witness :
    digitsOpt (some ['1']) = true ∧
    String.mk (isoDuration (some ['1']) (some ['2']) (some ['3', '0'])) = exampleDurationHMS ∧
    TranscriptExtractor.parse_duration
      (String.mk (isoDuration (some ['1']) (some ['2']) (some ['3', '0']))) =
      isoVal (some ['1']) * 3600 + isoVal (some ['2']) * 60 + isoVal (some ['3', '0']) :=
  ⟨by decide, by decide,
   claim_C4_duration_formula.1 (some ['1']) (some ['2']) (some ['3', '0'])
     (by decide) (by decide) (by decide)⟩

/-! ## Chapter generation lemmas (claims C1, C10) -/

/-- One iteration of the bucket loop appends exactly the bucket's
contribution. -/
theorem bucketStep_eq (duration num_chapters : ℕ) (segments : List TranscriptSegment)
    (gen : ℕ → Option String) (acc : List Chapter) (i : ℕ) :
    AIProcessor.bucketStep duration num_chapters segments gen acc i =
      acc ++ bucketChapters duration num_chapters segments gen i := by
  simp only [AIProcessor.bucketStep, bucketChapters, AIProcessor.combineTranscript]
  split
  · simp
  · split
    · split <;> simp
    · simp

/-- `_generate_chapters` is the concatenation of the per-bucket
contributions, in bucket order. -/
theorem generate_chapters_eq_flatMap (duration num_chapters : ℕ)
    (segments : List TranscriptSegment) (gen : ℕ → Option String) :
    AIProcessor.generate_chapters duration num_chapters segments gen =
      (List.range num_chapters).flatMap (bucketChapters duration num_chapters segments gen) := by
  unfold AIProcessor.generate_chapters
  have h := foldl_acc_eq_flatMap (AIProcessor.bucketStep duration num_chapters segments gen)
    (bucketChapters duration num_chapters segments gen)
    (bucketStep_eq duration num_chapters segments gen)
    (List.range num_chapters) []
  simpa using h

/-- A parsed chapter carries exactly the bucket times it was given. -/
theorem parse_chapter_times (r : String) (st et : ℚ) (c : Chapter)
    (h : AIProcessor.parse_chapter r st et = some c) :
    c.start_time = st ∧ c.end_time = et := by
  simp only [AIProcessor.parse_chapter] at h
  split at h
  · cases h
    exact ⟨rfl, rfl⟩
  · exact Option.noConfusion h

/-- Every chapter contributed by bucket `i` carries that bucket's start
and end times. -/
theorem bucketChapters_times (duration num_chapters : ℕ) (segments : List TranscriptSegment)
    (gen : ℕ → Option String) (i : ℕ) (c : Chapter)
    (hc : c ∈ bucketChapters duration num_chapters segments gen i) :
    c.start_time = (i : ℚ) * ((duration : ℚ) / (num_chapters : ℚ)) ∧
    c.end_time = min (((i : ℚ) + 1) * ((duration : ℚ) / (num_chapters : ℚ))) (duration : ℚ) := by
  simp only [bucketChapters] at hc
  split at hc
  · simp at hc
  · split at hc
    · split at hc
      · rw [List.mem_singleton] at hc
        subst hc
        rename_i hp
        exact parse_chapter_times _ _ _ _ hp
      · simp at hc
    · rw [List.mem_singleton] at hc
      subst hc
      exact ⟨rfl, rfl⟩

/-- Each bucket contributes at most one chapter. -/
theorem bucketChapters_length_le (duration num_chapters : ℕ)
    (segments : List TranscriptSegment) (gen : ℕ → Option String) (i : ℕ) :
    (bucketChapters duration num_chapters segments gen i).length ≤ 1 := by
  simp only [bucketChapters]
  split
  · simp
  · split
    · split <;> simp
    · simp

/-- Length bound for a `flatMap` whose pieces have at most one element. -/
theorem flatMap_length_le {α β : Type} (f : α → List β) (l : List α)
    (h1 : ∀ x ∈ l, (f x).length ≤ 1) : (l.flatMap f).length ≤ l.length := by
  induction l with
  | nil => simp
  | cons x xs ih =>
    rw [List.flatMap_cons, List.length_append, List.length_cons]
    have hx := h1 x (List.mem_cons_self _ _)
    have hxs := ih (fun y hy => h1 y (List.mem_cons_of_mem _ hy))
    omega

/-- A list with at most one element is vacuously pairwise. -/
theorem pairwise_of_length_le_one {β : Type} {R : β → β → Prop} (l : List β)
    (h : l.length ≤ 1) : l.Pairwise R := by
  cases l with
  | nil => exact List.Pairwise.nil
  | cons x xs =>
    cases xs with
    | nil => simp
    | cons y ys => simp at h

/-- `Pairwise` transfer from an index list to its `flatMap`. -/
theorem pairwise_flatMap {α β : Type} {R : β → β → Prop} (f : α → List β) (l : List α)
    (hcross : l.Pairwise (fun x y => ∀ a ∈ f x, ∀ b ∈ f y, R a b))
    (hin : ∀ x ∈ l, (f x).Pairwise R) : (l.flatMap f).Pairwise R := by
  induction l with
  | nil => simp
  | cons x xs ih =>
    rw [List.flatMap_cons, List.pairwise_append]
    rw [List.pairwise_cons] at hcross
    refine ⟨hin x (List.mem_cons_self _ _),
      ih hcross.2 (fun y hy => hin y (List.mem_cons_of_mem _ hy)), ?_⟩
    intro a ha b hb
    obtain ⟨y, hy, hby⟩ := List.mem_flatMap.mp hb
    exact hcross.1 y hy a ha b hby

/-- Claim C1: for `num_chapters ≥ 1`, chapter generation partitions the
time axis into buckets `[i·D/N, min((i+1)·D/N, D))`, selects exactly the
segments whose start lies in the bucket, skips a bucket whose selected
text strips to empty (no fallback), keeps the parsed chapter of a
successful call, and turns a raised generation call into exactly one
fallback chapter with title `Chapter i+1`, the bucket times, the
placeholder summary and one placeholder key point. -/
theorem claim_C1_chapter_buckets (duration num_chapters : ℕ)
    (segments : List TranscriptSegment) (gen : ℕ → Option String)
    (hN : 1 ≤ num_chapters) :
    AIProcessor.generate_chapters duration num_chapters segments gen =
      (List.range num_chapters).flatMap (fun i =>
        let chapter_duration : ℚ := (duration : ℚ) / (num_chapters : ℚ)
        let start_time : ℚ := (i : ℚ) * chapter_duration
        let end_time : ℚ := min (((i : ℚ) + 1) * chapter_duration) (duration : ℚ)
        let chapter_segments := segments.filter
          (fun s => decide (start_time ≤ s.start) && decide (s.start < end_time))
        if pyStrip (AIProcessor.combineTranscript chapter_segments) = [] then []
        else
          match gen i with
          | some response =>
            match AIProcessor.parse_chapter response start_time end_time with
            | some c => [c]
            | none => []
          | none =>
            [{ title := "Chapter " ++ toString (i + 1), start_time := start_time,
               end_time := end_time, summary := "Content summary not available.",
               key_points := ["Key points not available."] }]) :=
  generate_chapters_eq_flatMap duration num_chapters segments gen

/-- Witness for claim C1: a 600-second video cut into 2 buckets with an
always-raising generation oracle. -/
theorem claim_C1_chapter_buckets_witness :
    1 ≤ 2 ∧
    AIProcessor.generate_chapters 600 2 exampleSegments exampleGenFail =
      (List.range 2).flatMap (fun i =>
        let chapter_duration : ℚ := ((600 : ℕ) : ℚ) / ((2 : ℕ) : ℚ)
        let start_time : ℚ := (i : ℚ) * chapter_duration
        let end_time : ℚ := min (((i : ℚ) + 1) * chapter_duration) ((600 : ℕ) : ℚ)
        let chapter_segments := exampleSegments.filter
          (fun s => decide (start_time ≤ s.start) && decide (s.start < end_time))
        if pyStrip (AIProcessor.combineTranscript chapter_segments) = [] then []
        else
          match exampleGenFail i with
          | some response =>
            match AIProcessor.parse_chapter response start_time end_time with
            | some c => [c]
            | none => []
          | none =>
            [{ title := "Chapter " ++ toString (i + 1), start_time := start_time,
               end_time := end_time, summary := "Content summary not available.",
               key_points := ["Key points not available."] }]) :=
  ⟨by norm_num, claim_C1_chapter_buckets 600 2 exampleSegments exampleGenFail (by norm_num)⟩

/-- Claim C10: for `num_chapters ≥ 1` the generated chapter list has at
most `num_chapters` entries, every chapter (parsed or fallback) carries
its bucket's times `i·D/N` and `min((i+1)·D/N, D)`, and the list is
chronologically ordered with non-overlapping ranges. -/
theorem claim_C10_chapter_order (duration num_chapters : ℕ)
    (segments : List TranscriptSegment) (gen : ℕ → Option String)
    (hN : 1 ≤ num_chapters) :
    (AIProcessor.generate_chapters duration num_chapters segments gen).length ≤ num_chapters ∧
    (∀ c ∈ AIProcessor.generate_chapters duration num_chapters segments gen,
      ∃ i < num_chapters,
        c.start_time = (i : ℚ) * ((duration : ℚ) / (num_chapters : ℚ)) ∧
        c.end_time = min (((i : ℚ) + 1) * ((duration : ℚ) / (num_chapters : ℚ)))
          (duration : ℚ)) ∧
    (AIProcessor.generate_chapters duration num_chapters segments gen).Pairwise
      (fun a b => a.start_time ≤ b.start_time ∧ a.end_time ≤ b.start_time) := by
  rw [generate_chapters_eq_flatMap]
  have hd : (0 : ℚ) ≤ (duration : ℚ) / (num_chapters : ℚ) := by positivity
  refine ⟨?_, ?_, ?_⟩
  · have h := flatMap_length_le (bucketChapters duration num_chapters segments gen)
      (List.range num_chapters)
      (fun i _ => bucketChapters_length_le duration num_chapters segments gen i)
    simpa using h
  · intro c hc
    obtain ⟨i, hi, hci⟩ := List.mem_flatMap.mp hc
    exact ⟨i, List.mem_range.mp hi,
      bucketChapters_times duration num_chapters segments gen i c hci⟩
  · refine pairwise_flatMap _ _ ?_
      (fun i _ => pairwise_of_length_le_one _
        (bucketChapters_length_le duration num_chapters segments gen i))
    have hlt : (List.range num_chapters).Pairwise (· < ·) := List.pairwise_lt_range _
    refine hlt.imp ?_
    intro i j hij a ha b hb
    obtain ⟨has, hae⟩ := bucketChapters_times duration num_chapters segments gen i a ha
    obtain ⟨hbs, hbe⟩ := bucketChapters_times duration num_chapters segments gen j b hb
    have hij1 : ((i : ℚ) + 1) ≤ (j : ℚ) := by exact_mod_cast hij
    have hijle : (i : ℚ) ≤ (j : ℚ) := by
      have : (i : ℕ) ≤ j := Nat.le_of_lt hij
      exact_mod_cast this
    constructor
    · rw [has, hbs]
      exact mul_le_mul_of_nonneg_right hijle hd
    · rw [hae, hbs]
      exact le_trans (min_le_left _ _) (mul_le_mul_of_nonneg_right hij1 hd)

/-- Witness for claim C10: the same concrete 2-bucket run. -/
theorem claim_C10_chapter_order_witness :
    1 ≤ 2 ∧
    ((AIProcessor.generate_chapters 600 2 exampleSegments exampleGenFail).length ≤ 2 ∧
    (∀ c ∈ AIProcessor.generate_chapters 600 2 exampleSegments exampleGenFail,
      ∃ i : ℕ, i < 2 ∧
        c.start_time = (i : ℚ) * (((600 : ℕ) : ℚ) / ((2 : ℕ) : ℚ)) ∧
        c.end_time = min (((i : ℚ) + 1) * (((600 : ℕ) : ℚ) / ((2 : ℕ) : ℚ)))
          ((600 : ℕ) : ℚ)) ∧
    (AIProcessor.generate_chapters 600 2 exampleSegments exampleGenFail).Pairwise
      (fun a b => a.start_time ≤ b.start_time ∧ a.end_time ≤ b.start_time)) :=
  ⟨by norm_num, claim_C10_chapter_order 600 2 exampleSegments exampleGenFail (by norm_num)⟩

/-! ## Note publisher lemmas (claim C5) -/

/-- `_create_page_content` written as one append chain: header and
summary unconditional, the four list sections conditional, footer
unconditional. -/
theorem create_page_content_eq (vi : VideoInfo) (pc : ProcessedContent) (now : String) :
    NotionClient.create_page_content vi pc now =
      NotionClient.create_header_section vi ++
      NotionClient.create_summary_section pc.summary ++
      (if pc.learning_objectives ≠ [] then
        NotionClient.create_learning_objectives_section pc.learning_objectives else []) ++
      (if pc.main_topics ≠ [] then
        NotionClient.create_main_topics_section pc.main_topics else []) ++
      (if pc.key_concepts ≠ [] then
        NotionClient.create_key_concepts_section pc.key_concepts else []) ++
      (if pc.chapters ≠ [] then
        NotionClient.create_chapters_section pc.chapters else []) ++
      (if pc.questions ≠ [] then
        NotionClient.create_questions_section pc.questions else []) ++
      NotionClient.create_footer_section now := by
  simp only [NotionClient.create_page_content]
  split_ifs <;> simp [List.append_assoc]

/-- The header contains no level-2 heading. -/
theorem heading2_not_mem_header (vi : VideoInfo) (t : String) :
    Block.heading2 t ∉ NotionClient.create_header_section vi := by
  simp [NotionClient.create_header_section]

/-- The only level-2 heading of the summary section is its own. -/
theorem heading2_mem_summary (s : String) (t : String)
    (h : Block.heading2 t ∈ NotionClient.create_summary_section s) : t = "📋 Summary" := by
  simp only [NotionClient.create_summary_section, List.mem_append, List.mem_singleton] at h
  rcases h with h | h
  · simpa using h
  · exfalso
    have heq := foldl_acc_eq_filterMap
      (fun (acc : List Block) (p : List Char) =>
        if pyStrip p ≠ [] then acc ++ [Block.paragraph (String.mk (pyStrip p)) false false]
        else acc)
      (fun p : List Char =>
        if pyStrip p ≠ [] then some (Block.paragraph (String.mk (pyStrip p)) false false)
        else none)
      (by
        intro acc x
        dsimp only
        split <;> simp)
      (pySplitBlank s.data) []
    rw [heq] at h
    simp only [List.nil_append, List.mem_filterMap] at h
    obtain ⟨p, _, hg⟩ := h
    revert hg
    split <;> intro hg <;> simp at hg

/-- The only level-2 heading of the objectives section is its own. -/
theorem heading2_mem_objectives (l : List String) (t : String)
    (h : Block.heading2 t ∈ NotionClient.create_learning_objectives_section l) :
    t = "🎯 Learning Objectives" := by
  simp only [NotionClient.create_learning_objectives_section, List.mem_cons] at h
  rcases h with h | h
  · simpa using h
  · exact absurd h (by simp)

/-- The only level-2 heading of the topics section is its own. -/
theorem heading2_mem_topics (l : List String) (t : String)
    (h : Block.heading2 t ∈ NotionClient.create_main_topics_section l) :
    t = "📚 Main Topics" := by
  simp only [NotionClient.create_main_topics_section, List.mem_cons] at h
  rcases h with h | h
  · simpa using h
  · exact absurd h (by simp)

/-- The only level-2 heading of the key-concepts section is its own. -/
theorem heading2_mem_concepts (l : List KeyConcept) (t : String)
    (h : Block.heading2 t ∈ NotionClient.create_key_concepts_section l) :
    t = "🔑 Key Concepts" := by
  simp only [NotionClient.create_key_concepts_section, List.mem_cons] at h
  rcases h with h | h
  · simpa using h
  · exfalso
    obtain ⟨c, _, hmem⟩ := List.mem_flatMap.mp h
    simp at hmem

/-- The only level-2 heading of the chapters section is its own. -/
theorem heading2_mem_chapters (l : List Chapter) (t : String)
    (h : Block.heading2 t ∈ NotionClient.create_chapters_section l) :
    t = "📖 Chapters" := by
  simp only [NotionClient.create_chapters_section, List.mem_cons] at h
  rcases h with h | h
  · simpa using h
  · exfalso
    obtain ⟨p, _, hmem⟩ := List.mem_flatMap.mp h
    rcases List.mem_append.mp hmem with h2 | h2
    · simp at h2
    · revert h2
      split <;> intro h2 <;> simp at h2

/-- The only level-2 heading of the questions section is its own. -/
theorem heading2_mem_questions (l : List String) (t : String)
    (h : Block.heading2 t ∈ NotionClient.create_questions_section l) :
    t = "❓ Review Questions" := by
  simp only [NotionClient.create_questions_section, List.mem_cons] at h
  rcases h with h | h
  · simpa using h
  · exact absurd h (by simp)

/-- The footer contains no level-2 heading. -/
theorem heading2_not_mem_footer (now : String) (t : String) :
    Block.heading2 t ∉ NotionClient.create_footer_section now := by
  simp [NotionClient.create_footer_section]

/-- Which level-2 headings can appear on a rendered page, and under which
emptiness conditions. -/
theorem heading2_mem_page (vi : VideoInfo) (pc : ProcessedContent) (now : String) (t : String)
    (h : Block.heading2 t ∈ NotionClient.create_page_content vi pc now) :
    t = "📋 Summary" ∨
    (t = "🎯 Learning Objectives" ∧ pc.learning_objectives ≠ []) ∨
    (t = "📚 Main Topics" ∧ pc.main_topics ≠ []) ∨
    (t = "🔑 Key Concepts" ∧ pc.key_concepts ≠ []) ∨
    (t = "📖 Chapters" ∧ pc.chapters ≠ []) ∨
    (t = "❓ Review Questions" ∧ pc.questions ≠ []) := by
  rw [create_page_content_eq] at h
  simp only [List.append_assoc, List.mem_append] at h
  rcases h with h | h | h | h | h | h | h | h
  · exact absurd h (heading2_not_mem_header vi t)
  · exact Or.inl (heading2_mem_summary _ _ h)
  · by_cases hc : pc.learning_objectives ≠ []
    · rw [if_pos hc] at h
      exact Or.inr (Or.inl ⟨heading2_mem_objectives _ _ h, hc⟩)
    · rw [if_neg hc] at h
      simp at h
  · by_cases hc : pc.main_topics ≠ []
    · rw [if_pos hc] at h
      exact Or.inr (Or.inr (Or.inl ⟨heading2_mem_topics _ _ h, hc⟩))
    · rw [if_neg hc] at h
      simp at h
  · by_cases hc : pc.key_concepts ≠ []
    · rw [if_pos hc] at h
      exact Or.inr (Or.inr (Or.inr (Or.inl ⟨heading2_mem_concepts _ _ h, hc⟩)))
    · rw [if_neg hc] at h
      simp at h
  · by_cases hc : pc.chapters ≠ []
    · rw [if_pos hc] at h
      exact Or.inr (Or.inr (Or.inr (Or.inr (Or.inl ⟨heading2_mem_chapters _ _ h, hc⟩))))
    · rw [if_neg hc] at h
      simp at h
  · by_cases hc : pc.questions ≠ []
    · rw [if_pos hc] at h
      exact Or.inr (Or.inr (Or.inr (Or.inr (Or.inr ⟨heading2_mem_questions _ _ h, hc⟩))))
    · rw [if_neg hc] at h
      simp at h
  · exact absurd h (heading2_not_mem_footer now t)

/-- Claim C5, counterexample: the summary section is rendered
unconditionally, so a `ProcessedContent` whose summary is the empty string
still contributes the `📋 Summary` heading block to the page. -/
theorem claim_C5_counterexample :
    LectureNotetaker.emptyProcessedContent.summary = "" ∧
    Block.heading2 "📋 Summary" ∈
      NotionClient.create_page_content exampleVideoInfo
        LectureNotetaker.emptyProcessedContent exampleNow := by decide

/-- Claim C5, amended: the page is always header, summary section, the
four list sections (each only when its source list is non-empty), then
footer; an empty summary still contributes its heading (and nothing
else), while each empty list section contributes no blocks at all — in
particular no level-2 heading. -/
theorem claim_C5_section_omission :
    (∀ (vi : VideoInfo) (pc : ProcessedContent) (now : String),
      NotionClient.create_page_content vi pc now =
        NotionClient.create_header_section vi ++
        NotionClient.create_summary_section pc.summary ++
        (if pc.learning_objectives ≠ [] then
          NotionClient.create_learning_objectives_section pc.learning_objectives else []) ++
        (if pc.main_topics ≠ [] then
          NotionClient.create_main_topics_section pc.main_topics else []) ++
        (if pc.key_concepts ≠ [] then
          NotionClient.create_key_concepts_section pc.key_concepts else []) ++
        (if pc.chapters ≠ [] then
          NotionClient.create_chapters_section pc.chapters else []) ++
        (if pc.questions ≠ [] then
          NotionClient.create_questions_section pc.questions else []) ++
        NotionClient.create_footer_section now) ∧
    (∀ s : String, s = "" →
      NotionClient.create_summary_section s = [Block.heading2 "📋 Summary"]) ∧
    (∀ (vi : VideoInfo) (pc : ProcessedContent) (now : String),
      Block.heading2 "📋 Summary" ∈ NotionClient.create_page_content vi pc now) ∧
    (∀ (vi : VideoInfo) (pc : ProcessedContent) (now : String),
      pc.learning_objectives = [] →
      Block.heading2 "🎯 Learning Objectives" ∉ NotionClient.create_page_content vi pc now) ∧
    (∀ (vi : VideoInfo) (pc : ProcessedContent) (now : String),
      pc.main_topics = [] →
      Block.heading2 "📚 Main Topics" ∉ NotionClient.create_page_content vi pc now) ∧
    (∀ (vi : VideoInfo) (pc : ProcessedContent) (now : String),
      pc.key_concepts = [] →
      Block.heading2 "🔑 Key Concepts" ∉ NotionClient.create_page_content vi pc now) ∧
    (∀ (vi : VideoInfo) (pc : ProcessedContent) (now : String),
      pc.chapters = [] →
      Block.heading2 "📖 Chapters" ∉ NotionClient.create_page_content vi pc now) ∧
    (∀ (vi : VideoInfo) (pc : ProcessedContent) (now : String),
      pc.questions = [] →
      Block.heading2 "❓ Review Questions" ∉ NotionClient.create_page_content vi pc now) := by
  refine ⟨create_page_content_eq, ?_, ?_, ?_, ?_, ?_, ?_, ?_⟩
  · intro s hs
    subst hs
    decide
  · intro vi pc now
    rw [create_page_content_eq]
    simp only [List.append_assoc, List.mem_append]
    right
    left
    simp [NotionClient.create_summary_section]
  · intro vi pc now hempty hmem
    rcases heading2_mem_page vi pc now _ hmem with h | ⟨h, hne⟩ | ⟨h, _⟩ | ⟨h, _⟩ | ⟨h, _⟩ | ⟨h, _⟩
    · exact absurd h (by decide)
    · exact hne hempty
    · exact absurd h (by decide)
    · exact absurd h (by decide)
    · exact absurd h (by decide)
    · exact absurd h (by decide)
  · intro vi pc now hempty hmem
    rcases heading2_mem_page vi pc now _ hmem with h | ⟨h, _⟩ | ⟨h, hne⟩ | ⟨h, _⟩ | ⟨h, _⟩ | ⟨h, _⟩
    · exact absurd h (by decide)
    · exact absurd h (by decide)
    · exact hne hempty
    · exact absurd h (by decide)
    · exact absurd h (by decide)
    · exact absurd h (by decide)
  · intro vi pc now hempty hmem
    rcases heading2_mem_page vi pc now _ hmem with h | ⟨h, _⟩ | ⟨h, _⟩ | ⟨h, hne⟩ | ⟨h, _⟩ | ⟨h, _⟩
    · exact absurd h (by decide)
    · exact absurd h (by decide)
    · exact absurd h (by decide)
    · exact hne hempty
    · exact absurd h (by decide)
    · exact absurd h (by decide)
  · intro vi pc now hempty hmem
    rcases heading2_mem_page vi pc now _ hmem with h | ⟨h, _⟩ | ⟨h, _⟩ | ⟨h, _⟩ | ⟨h, hne⟩ | ⟨h, _⟩
    · exact absurd h (by decide)
    · exact absurd h (by decide)
    · exact absurd h (by decide)
    · exact absurd h (by decide)
    · exact hne hempty
    · exact absurd h (by decide)
  · intro vi pc now hempty hmem
    rcases heading2_mem_page vi pc now _ hmem with h | ⟨h, _⟩ | ⟨h, _⟩ | ⟨h, _⟩ | ⟨h, _⟩ | ⟨h, hne⟩
    · exact absurd h (by decide)
    · exact absurd h (by decide)
    · exact absurd h (by decide)
    · exact absurd h (by decide)
    · exact absurd h (by decide)
    · exact hne hempty

/-- Witness for claim C5: the all-empty content renders no objectives
heading. -/
theorem claim_C5_section_omission_witness :
    LectureNotetaker.emptyProcessedContent.learning_objectives = [] ∧
    Block.heading2 "🎯 Learning Objectives" ∉
      NotionClient.create_page_content exampleVideoInfo
        LectureNotetaker.emptyProcessedContent exampleNow :=
  ⟨rfl, claim_C5_section_omission.2.2.2.1 exampleVideoInfo
    LectureNotetaker.emptyProcessedContent exampleNow rfl⟩

/-! ## Orchestrator error handling (claim C8) -/

/-- Claim C8: `process_video` is total (the embedding is a function, so it
never raises), and whenever extraction, processing or publishing raises,
the result is the failed `NoteResult`: success is false, the error message
is the exception's message, the `VideoInfo` is the placeholder (empty
id/description/channel, title `Error`, duration 0, view count 0) and the
`ProcessedContent` is empty. -/
theorem claim_C8_process_video_errors
    (extract : Except String (VideoInfo × List TranscriptSegment))
    (title : Option String)
    (process : VideoInfo → List TranscriptSegment → Except String ProcessedContent)
    (publish : VideoInfo → ProcessedContent → Except String String)
    (flag : Bool) :
    (∀ e : String, LectureNotetaker.failedNoteResult e =
      { video_info := { id := "", title := "Error", description := "",
                        duration := 0, channel_title := "", published_at := "",
                        view_count := 0 },
        processed_content := { summary := "", key_concepts := [], chapters := [],
                               main_topics := [], learning_objectives := [],
                               questions := [] },
        notion_url := none, success := false, error_message := some e }) ∧
    (∀ e : String, extract = Except.error e →
      LectureNotetaker.process_video extract title process publish flag =
        LectureNotetaker.failedNoteResult e) ∧
    (∀ (vi : VideoInfo) (segments : List TranscriptSegment) (e : String),
      extract = Except.ok (vi, segments) →
      process (LectureNotetaker.overrideTitle title vi) segments = Except.error e →
      LectureNotetaker.process_video extract title process publish flag =
        LectureNotetaker.failedNoteResult e) ∧
    (∀ (vi : VideoInfo) (segments : List TranscriptSegment) (pc : ProcessedContent)
      (e : String),
      extract = Except.ok (vi, segments) →
      process (LectureNotetaker.overrideTitle title vi) segments = Except.ok pc →
      flag = true →
      publish (LectureNotetaker.overrideTitle title vi) pc = Except.error e →
      LectureNotetaker.process_video extract title process publish flag =
        LectureNotetaker.failedNoteResult e) := by
  refine ⟨fun e => rfl, ?_, ?_, ?_⟩
  · intro e he
    subst he
    rfl
  · intro vi segments e he hp
    subst he
    simp [LectureNotetaker.process_video, LectureNotetaker.processVideoChain, hp,
      Bind.bind, Except.bind]
  · intro vi segments pc e he hp hflag hpub
    subst he
    subst hflag
    simp [LectureNotetaker.process_video, LectureNotetaker.processVideoChain, hp, hpub,
      Bind.bind, Except.bind, Functor.map, Except.map]

/-- Witness for claim C8: a failing extraction oracle yields the failed
result carrying its message. -/
theorem claim_C8_process_video_errors_witness :
    exampleExtractFailure = Except.error "boom" ∧
    LectureNotetaker.process_video exampleExtractFailure none exampleProcessOk
      examplePublishOk true = LectureNotetaker.failedNoteResult "boom" :=
  ⟨rfl, (claim_C8_process_video_errors exampleExtractFailure none exampleProcessOk
    examplePublishOk true).2.1 "boom" rfl⟩

/-- The end-to-end scenario of the specification: a 600-second video,
`num_chapters = 2`, segments covering both halves, and a generation
backend that always raises yields exactly the two fallback chapters with
ranges `[0, 300)` and `[300, 600]`. -/
example :
    AIProcessor.generate_chapters 600 2 exampleSegments exampleGenFail =
      [AIProcessor.fallbackChapter 0 0 300, AIProcessor.fallbackChapter 1 300 600] := by
  rw [generate_chapters_eq_flatMap]
  norm_num [List.range_succ, bucketChapters, AIProcessor.combineTranscript,
    exampleSegments, exampleGenFail, List.filter, AIProcessor.fallbackChapter]
  decide
